import Mathlib

/-!
# Verification of the Lumen potion-flow analytics core

A shallow embedding, in Lean 4, of the analytics core of the Lumen
repository: fill-rate estimation (`backend/fill_rates.py`, `analysis.py`),
drain-event detection (`backend/drain_detection.py`), drain-to-ticket
reconciliation (`backend/drain_detection.py`), overflow priority ranking
(`backend/analytics.py`) and courier trust / suspicious-pattern reporting
(`backend/reporting.py`).

Modelling conventions:
* timestamps are rationals, measured in minutes; a calendar date is the
  floor of the timestamp divided by 1440 (minutes per day);
* levels, rates and volumes are rationals (the source uses IEEE floats;
  all arithmetic in the embedded fragment is exact on the inputs used);
* a pandas `Series` with possibly missing values is a list of
  `(timestamp, Option level)` pairs; `dropna` removes the missing entries;
* cauldron, ticket and courier identifiers are opaque naturals (the
  source uses strings; only equality, and for `groupby` an arbitrary
  total order, is ever used on them);
* pandas `DataFrame` rows become structures; a frame produced by
  `pd.DataFrame` on an empty record list has *no columns*, which the
  ticket-table model tracks explicitly (`TicketFrame`);
* Python exceptions are modelled with `Except`.
-/

namespace Lumen

/-- A cleaned time series: `(timestamp in minutes, level)` pairs. -/
abbrev Series := List (ℚ × ℚ)

/-- A raw series with missing values, before `dropna`. -/
abbrev RawSeries := List (ℚ × Option ℚ)

/-- `series.dropna()`: drop the entries whose level is missing. -/
def dropna (s : RawSeries) : Series :=
  s.filterMap fun p => p.2.map fun v => (p.1, v)

/-- Timestamp of sample `i` (0 when out of range; all uses are in range). -/
def timeAt (s : Series) (i : ℕ) : ℚ := (s.getD i (0, 0)).1

/-- Level of sample `i` (0 when out of range; all uses are in range). -/
def levelAt (s : Series) (i : ℕ) : ℚ := (s.getD i (0, 0)).2

/-- Pointwise rate of change at sample `i ≥ 1`:
`series.diff() / index.diff()` in minutes. -/
def rateAt (s : Series) (i : ℕ) : ℚ :=
  (levelAt s i - levelAt s (i - 1)) / (timeAt s i - timeAt s (i - 1))

/-- The list of pointwise rates between consecutive samples
(`level_diffs / time_diffs` with the leading `NaN` dropped). -/
def pointwiseRates (s : Series) : List ℚ :=
  (List.range (s.length - 1)).map fun i => rateAt s (i + 1)

/-- Minimum of a list of rationals (`0` on the empty list; every use is on
a non-empty list, mirroring `pandas.Series.min`). -/
def listMin : List ℚ → ℚ
  | [] => 0
  | x :: xs => xs.foldl min x

/-- Python `int()` applied to a rational: truncation toward zero. -/
def pyInt (q : ℚ) : ℤ :=
  if 0 ≤ q then ⌊q⌋ else -⌊-q⌋

/-- Calendar date of a timestamp, as a day number (`.date()`). -/
def dateOf (t : ℚ) : ℤ := ⌊t / 1440⌋

/-- Sum of a list of rationals. -/
def qsum (l : List ℚ) : ℚ := l.foldr (· + ·) 0

/-- Arithmetic mean of a list of rationals (0 on the empty list; callers
guard non-emptiness, mirroring the `NaN` produced by `pandas.mean`). -/
def qmean (l : List ℚ) : ℚ := qsum l / l.length

/-- `pandas.Series.median`: sort ascending, middle element for odd length,
average of the two middle elements for even length. -/
def listMedian (l : List ℚ) : ℚ :=
  let s := l.insertionSort (· ≤ ·)
  let n := s.length
  if n % 2 = 1 then s.getD (n / 2) 0
  else (s.getD (n / 2 - 1) 0 + s.getD (n / 2) 0) / 2

/-! ## Configuration constants (`backend/config.py`, also inlined at the
top of `analysis.py`) -/

/-- `NEGATIVE_RATE_THRESHOLD = -0.05` L/min. -/
def NEGATIVE_RATE_THRESHOLD : ℚ := -(5 / 100)

/-- `MIN_DRAIN_VOLUME = 20.0` L. -/
def MIN_DRAIN_VOLUME : ℚ := 20

/-- `TICKET_TOLERANCE_PCT = 2.0` %. -/
def TICKET_TOLERANCE_PCT : ℚ := 2

/-! ## Drain event detection (`backend/drain_detection.py`,
`detect_drain_events`; the copy in `analysis.py` is identical) -/

/-- One detected drain event (the ad-hoc dict appended to `drain_events`).
The source also formats a string `drain_id` from the cauldron id and the
end time; both components are present here as fields. -/
structure DrainEvent where
  cauldron_id : ℕ
  start_time : ℚ
  end_time : ℚ
  date : ℤ
  ticket_date : ℤ
  level_before : ℚ
  level_after : ℚ
  level_drop : ℚ
  drain_duration_min : ℚ
  potion_generated_during_drain : ℚ
  total_collected : ℚ
  min_rate_during_drain : ℚ
deriving DecidableEq, Repr, Inhabited

/-- `_calc_ticket_date`: calendar date of `drain_end + travel_time`. -/
def calc_ticket_date (drain_end : ℚ) (travel_time : ℚ) : ℤ :=
  dateOf (drain_end + travel_time)

/-- `is_draining.iloc[i]`: the pointwise rate is below the negative
threshold.  At `i = 0` the rate is `NaN` and the comparison is `False`. -/
def isDrainingAt (s : Series) (i : ℕ) : Bool :=
  decide (i ≠ 0) && decide (rateAt s i < NEGATIVE_RATE_THRESHOLD)

/-- Loop state of `detect_drain_events`. -/
structure DetectState where
  in_drain : Bool
  drain_start : ℚ
  drain_start_idx : ℕ
  peak : Option ℚ
  events : List DrainEvent
deriving Repr

/-- One iteration of the detection loop (`for i in range(len(series))`). -/
def detectStep (s : Series) (cid : ℕ) (fill_rate travel_time : ℚ)
    (st : DetectState) (i : ℕ) : DetectState :=
  let t := timeAt s i
  let lvl := levelAt s i
  let flag := isDrainingAt s i
  if st.in_drain then
    if flag then st
    else
      -- close the event at this sample
      let level_before := st.peak.getD lvl
      let level_drop := level_before - lvl
      let dur := t - st.drain_start
      let potion := fill_rate * dur
      let total := level_drop + potion
      let ev : DrainEvent :=
        { cauldron_id := cid
          start_time := st.drain_start
          end_time := t
          date := dateOf t
          ticket_date := calc_ticket_date t travel_time
          level_before := level_before
          level_after := lvl
          level_drop := level_drop
          drain_duration_min := dur
          potion_generated_during_drain := potion
          total_collected := total
          min_rate_during_drain :=
            listMin (((List.range' st.drain_start_idx (i - st.drain_start_idx))).map (rateAt s)) }
      let events' :=
        if MIN_DRAIN_VOLUME ≤ level_drop ∧ 0 < total then st.events ++ [ev] else st.events
      { in_drain := false, drain_start := st.drain_start,
        drain_start_idx := st.drain_start_idx, peak := some lvl, events := events' }
  else
    let peak' := match st.peak with
      | none => lvl
      | some p => if p < lvl then lvl else p
    if flag then
      { st with peak := some peak', in_drain := true, drain_start := t, drain_start_idx := i }
    else
      { st with peak := some peak' }

/-- `detect_drain_events(series, cauldron_id, fill_rate, travel_time)`:
rate-of-change drain detection with continuous-filling compensation. -/
def detect_drain_events (raw : RawSeries) (cid : ℕ) (fill_rate : ℚ)
    (travel_time : ℚ) : List DrainEvent :=
  let s := dropna raw
  if s.length < 3 then []
  else ((List.range s.length).foldl (detectStep s cid fill_rate travel_time)
    ⟨false, 0, 0, none, []⟩).events

/-! ### Invariants of the detection loop -/

theorem foldl_min_le (l : List ℚ) (a : ℚ) : l.foldl min a ≤ a := by
  induction l generalizing a with
  | nil => exact le_refl a
  | cons x xs ih =>
      simpa using le_trans (ih (min a x)) (min_le_left a x)

theorem listMin_cons_le (x : ℚ) (xs : List ℚ) : listMin (x :: xs) ≤ x :=
  foldl_min_le xs x

/-- The per-event invariant established by the emission guard together
with the construction of the event record. -/
def EventOK (fr : ℚ) (e : DrainEvent) : Prop :=
  MIN_DRAIN_VOLUME ≤ e.level_drop ∧
  e.total_collected = e.level_drop + fr * e.drain_duration_min ∧
  0 < e.total_collected ∧
  e.min_rate_during_drain < NEGATIVE_RATE_THRESHOLD

/-- Invariant carried through the detection loop: every materialized event
satisfies `EventOK`, and while a drain is open the sample that opened it
is draining-flagged and lies strictly before the current index. -/
def StInv (s : Series) (fr : ℚ) (i : ℕ) (st : DetectState) : Prop :=
  (∀ e ∈ st.events, EventOK fr e) ∧
  (st.in_drain = true → isDrainingAt s st.drain_start_idx = true ∧ st.drain_start_idx < i)

theorem detectStep_inv (s : Series) (cid : ℕ) (fr tv : ℚ) (i : ℕ)
    (st : DetectState) (h : StInv s fr i st) :
    StInv s fr (i + 1) (detectStep s cid fr tv st i) := by
  obtain ⟨hev, hdr⟩ := h
  unfold detectStep
  by_cases hd : st.in_drain = true
  · -- a drain is open
    obtain ⟨hflag, hlt⟩ := hdr hd
    by_cases hf : isDrainingAt s i = true
    · simp only [hd, hf, if_true]
      exact ⟨hev, fun _ => ⟨hflag, Nat.lt_succ_of_lt hlt⟩⟩
    · simp only [hd, hf, if_true, if_false, Bool.false_eq_true]
      refine ⟨?_, fun hcon => by simp at hcon⟩
      intro e he
      split at he
      next hguard =>
        rcases List.mem_append.mp he with hmem | hmem
        · exact hev e hmem
        · -- the freshly emitted event
          have heq : e = _ := List.mem_singleton.mp hmem
          subst heq
          refine ⟨hguard.1, rfl, hguard.2, ?_⟩
          -- the slice over which the minimum is taken starts at the
          -- draining-flagged sample that opened the event
          obtain ⟨k, hk⟩ : ∃ k, i - st.drain_start_idx = k + 1 :=
            ⟨i - st.drain_start_idx - 1, by omega⟩
          have hrate : rateAt s st.drain_start_idx < NEGATIVE_RATE_THRESHOLD := by
            have := of_decide_eq_true (Bool.and_elim_right hflag)
            exact this
          calc listMin ((List.range' st.drain_start_idx (i - st.drain_start_idx)).map (rateAt s))
              ≤ rateAt s st.drain_start_idx := by
                rw [hk, List.range'_succ, List.map_cons]
                exact listMin_cons_le _ _
            _ < NEGATIVE_RATE_THRESHOLD := hrate
      next => exact hev e he
  · -- no drain open: the peak is tracked, a flagged sample opens a drain
    by_cases hf : isDrainingAt s i = true
    · simp only [hd, hf, if_true, if_false, Bool.false_eq_true]
      exact ⟨hev, fun _ => ⟨hf, Nat.lt_succ_self i⟩⟩
    · simp only [hd, hf, if_false, Bool.false_eq_true]
      exact ⟨hev, fun hcon => absurd hcon (by simp)⟩

theorem foldl_detect_inv (s : Series) (cid : ℕ) (fr tv : ℚ) :
    ∀ (k i : ℕ) (st : DetectState), StInv s fr i st →
      StInv s fr (i + k) ((List.range' i k).foldl (detectStep s cid fr tv) st) := by
  intro k
  induction k with
  | zero => intro i st h; simpa using h
  | succ n ih =>
      intro i st h
      rw [List.range'_succ, List.foldl_cons]
      have := ih (i + 1) (detectStep s cid fr tv st i) (detectStep_inv s cid fr tv i st h)
      have harith : i + 1 + n = i + (n + 1) := by omega
      rwa [harith] at this

/-- Every emitted drain event satisfies the `EventOK` invariant. -/
theorem detect_drain_events_ok (raw : RawSeries) (cid : ℕ) (fr tv : ℚ)
    (e : DrainEvent) (he : e ∈ detect_drain_events raw cid fr tv) :
    EventOK fr e := by
  simp only [detect_drain_events] at he
  split at he
  · simp at he
  · have h0 : StInv (dropna raw) fr 0 ⟨false, 0, 0, none, []⟩ :=
      ⟨fun e he => by simp at he, fun hcon => by simp at hcon⟩
    have := foldl_detect_inv (dropna raw) cid fr tv (dropna raw).length 0 _ h0
    rw [← List.range_eq_range'] at this
    exact this.1 e he

/-- The series is chronologically ordered: strictly increasing timestamps
(the ingestion boundary sorts the time index ascending). -/
def chronological : Series → Bool
  | [] => true
  | [_] => true
  | p :: q :: r => decide (p.1 < q.1) && chronological (q :: r)

/-- A sample input series: one clear drain of 50 L over 20 minutes. -/
def sampleSeries : RawSeries :=
  [(0, some 100), (10, some 50), (20, some 49), (30, some 50)]

/-- The event the detector emits on `sampleSeries`. -/
def sampleEvent : DrainEvent :=
  (detect_drain_events sampleSeries 1 1 0).headD default

/-- C1: for every tank with a strictly positive fill rate and every
chronologically ordered level series, every drain event emitted by the
detector satisfies `level_drop ≥ MIN_DRAIN_VOLUME (20)` and
`total_collected = level_drop + fill_rate_per_minute * duration_minutes > 0`;
no event violating either condition is ever emitted. -/
theorem claim_C1_drain_event_invariant (raw : RawSeries) (cid : ℕ)
    (fill_rate travel_time : ℚ) (hfr : 0 < fill_rate)
    (hchron : chronological (dropna raw) = true)
    (e : DrainEvent) (he : e ∈ detect_drain_events raw cid fill_rate travel_time) :
    MIN_DRAIN_VOLUME ≤ e.level_drop ∧
    e.total_collected = e.level_drop + fill_rate * e.drain_duration_min ∧
    0 < e.total_collected := by
  obtain ⟨h1, h2, h3, _⟩ := detect_drain_events_ok raw cid fill_rate travel_time e he
  exact ⟨h1, h2, h3⟩

/-- Witness for C1 on the concrete series `sampleSeries`. -/
theorem claim_C1_witness :
    (0 : ℚ) < 1 ∧
    chronological (dropna sampleSeries) = true ∧
    sampleEvent ∈ detect_drain_events sampleSeries 1 1 0 ∧
    (MIN_DRAIN_VOLUME ≤ sampleEvent.level_drop ∧
     sampleEvent.total_collected = sampleEvent.level_drop + 1 * sampleEvent.drain_duration_min ∧
     0 < sampleEvent.total_collected) := by
  have hmem : sampleEvent ∈ detect_drain_events sampleSeries 1 1 0 := by
    rw [show detect_drain_events sampleSeries 1 1 0 = [sampleEvent] by with_unfolding_all rfl]
    exact List.mem_singleton_self _
  have hch : chronological (dropna sampleSeries) = true := by with_unfolding_all rfl
  exact ⟨by norm_num, hch, hmem,
    claim_C1_drain_event_invariant sampleSeries 1 1 0 (by norm_num) hch sampleEvent hmem⟩

/-- C10: every drain event emitted by the detector has
`min_rate_during_drain` strictly below the negative rate threshold
`-0.05` L/min, because the minimum is taken over a window that contains
the draining-flagged sample that opened the event. -/
theorem claim_C10_min_rate_below_threshold (raw : RawSeries) (cid : ℕ)
    (fill_rate travel_time : ℚ)
    (hchron : chronological (dropna raw) = true)
    (e : DrainEvent) (he : e ∈ detect_drain_events raw cid fill_rate travel_time) :
    e.min_rate_during_drain < NEGATIVE_RATE_THRESHOLD :=
  (detect_drain_events_ok raw cid fill_rate travel_time e he).2.2.2

/-- Witness for C10 on the concrete series `sampleSeries`. -/
theorem claim_C10_witness :
    chronological (dropna sampleSeries) = true ∧
    sampleEvent ∈ detect_drain_events sampleSeries 1 1 0 ∧
    sampleEvent.min_rate_during_drain < NEGATIVE_RATE_THRESHOLD := by
  have hmem : sampleEvent ∈ detect_drain_events sampleSeries 1 1 0 := by
    rw [show detect_drain_events sampleSeries 1 1 0 = [sampleEvent] by with_unfolding_all rfl]
    exact List.mem_singleton_self _
  have hch : chronological (dropna sampleSeries) = true := by with_unfolding_all rfl
  exact ⟨hch, hmem,
    claim_C10_min_rate_below_threshold sampleSeries 1 1 0 hch sampleEvent hmem⟩

/-! ## Drain-to-ticket reconciliation (`backend/drain_detection.py`,
`match_drains_to_tickets`; the copy in `analysis.py` is identical) -/

/-- A transport ticket record (`ticket_id`, `tank_id`, `date`,
`amount_collected`, `courier_id`); identifiers are modelled as opaque
naturals. -/
structure Ticket where
  ticket_id : ℕ
  cauldron_id : ℕ
  date : ℤ
  amount_collected : ℚ
  courier_id : ℕ
deriving DecidableEq, Repr, Inhabited

/-- Reconciliation status strings. -/
inductive MatchStatus where
  | MATCHED
  | UNDER_REPORTED
  | OVER_REPORTED
  | NO_TICKET_FOUND
deriving DecidableEq, Repr, Inhabited

/-- One row of the reconciliation result.  The source also formats a
string `drain_id` from `cauldron_id` and the end time and a human-readable
`notes` string; the identifying data is present in the fields here. -/
structure MatchRow where
  cauldron_id : ℕ
  drain_date : ℤ
  ticket_date : ℤ
  drain_time : ℚ
  drain_amount : ℚ
  ticket_id : Option ℕ
  ticket_amount : Option ℚ
  difference : Option ℚ
  difference_pct : Option ℚ
  status : MatchStatus
deriving DecidableEq, Repr, Inhabited

/-- `pct_diff = |drain_amount − ticket_amount| / drain_amount × 100`,
`0` when `drain_amount` is not positive. -/
def pct_diff (drain_amount ticket_amount : ℚ) : ℚ :=
  if 0 < drain_amount then |drain_amount - ticket_amount| / drain_amount * 100 else 0

/-- `min(matching_tickets.iterrows(), key=...)`: fold keeping the first
candidate minimizing `|drain_amount − amount_collected|` (Python's `min`
replaces the current best only on a strictly smaller key). -/
def pickBest (drain_amount : ℚ) (c : Ticket) (cs : List Ticket) : Ticket :=
  cs.foldl (fun b t =>
    if |drain_amount - t.amount_collected| < |drain_amount - b.amount_collected| then t else b) c

/-- Candidate tickets for a drain: same cauldron, ticket date equal to the
drain's expected ticket date. -/
def candidateTickets (tickets : List Ticket) (cid : ℕ) (ticket_date : ℤ) : List Ticket :=
  tickets.filter fun t => t.cauldron_id == cid && t.date == ticket_date

/-- Body of the per-drain loop of `match_drains_to_tickets`. -/
def matchOne (tickets : List Ticket) (d : DrainEvent) : MatchRow :=
  match candidateTickets tickets d.cauldron_id d.ticket_date with
  | [] =>
      { cauldron_id := d.cauldron_id, drain_date := d.date, ticket_date := d.ticket_date,
        drain_time := d.end_time, drain_amount := d.total_collected,
        ticket_id := none, ticket_amount := none, difference := none,
        difference_pct := none, status := .NO_TICKET_FOUND }
  | c :: cs =>
      let da := d.total_collected
      let best := pickBest da c cs
      let ta := best.amount_collected
      let pct := pct_diff da ta
      let status : MatchStatus :=
        if |pct| ≤ TICKET_TOLERANCE_PCT then .MATCHED
        else if ta < da then .UNDER_REPORTED
        else .OVER_REPORTED
      { cauldron_id := d.cauldron_id, drain_date := d.date, ticket_date := d.ticket_date,
        drain_time := d.end_time, drain_amount := da,
        ticket_id := some best.ticket_id, ticket_amount := some ta,
        difference := some (ta - da), difference_pct := some pct, status := status }

/-- `match_drains_to_tickets(df_drains, df_tickets)`, given a ticket table
that has the required columns. -/
def match_drains_to_tickets (drains : List DrainEvent) (tickets : List Ticket) :
    List MatchRow :=
  drains.map (matchOne tickets)

/-- A pandas ticket `DataFrame`: `pd.DataFrame` applied to an empty record
list produces a frame with *no columns*, which `has_columns` tracks. -/
structure TicketFrame where
  has_columns : Bool
  rows : List Ticket
deriving DecidableEq, Repr

/-- `transform_tickets` (`backend/data_transforms.py`): an empty or
absent ticket source yields a zero-column frame; a non-empty record list
yields a frame with the ticket columns. -/
def transform_tickets (tickets : List Ticket) : TicketFrame :=
  { has_columns := !tickets.isEmpty, rows := tickets }

/-- `match_drains_to_tickets` at the `DataFrame` level: the column lookups
`df_tickets['cauldron_id']` and `df_tickets['date']` inside the loop raise
`KeyError` when the frame has no columns, which happens exactly when at
least one drain row is iterated.  A raised exception is `Except.error`. -/
def match_drains_to_tickets_df (drains : List DrainEvent) (tf : TicketFrame) :
    Except Unit (List MatchRow) :=
  if drains.isEmpty then .ok []
  else if tf.has_columns then .ok (match_drains_to_tickets drains tf.rows)
  else .error ()

theorem pickBest_mem (da : ℚ) (c : Ticket) (cs : List Ticket) :
    pickBest da c cs ∈ c :: cs := by
  induction cs generalizing c with
  | nil => simp [pickBest]
  | cons t ts ih =>
      have step : pickBest da c (t :: ts) =
          pickBest da
            (if |da - t.amount_collected| < |da - c.amount_collected| then t else c) ts := rfl
      by_cases h : |da - t.amount_collected| < |da - c.amount_collected|
      · rw [step, if_pos h]
        exact List.mem_cons_of_mem c (ih t)
      · rw [step, if_neg h]
        rcases List.mem_cons.mp (ih c) with hx | hx
        · rw [hx]
          exact List.mem_cons_self c (t :: ts)
        · exact List.mem_cons_of_mem c (List.mem_cons_of_mem t hx)

theorem pickBest_min (da : ℚ) (c : Ticket) (cs : List Ticket) :
    ∀ x ∈ c :: cs,
      |da - (pickBest da c cs).amount_collected| ≤ |da - x.amount_collected| := by
  induction cs generalizing c with
  | nil =>
      intro x hx
      rw [List.mem_singleton] at hx
      subst hx
      simp [pickBest]
  | cons t ts ih =>
      intro x hx
      have step : pickBest da c (t :: ts) =
          pickBest da
            (if |da - t.amount_collected| < |da - c.amount_collected| then t else c) ts := rfl
      rcases List.mem_cons.mp hx with rfl | hx'
      · by_cases h : |da - t.amount_collected| < |da - x.amount_collected|
        · rw [step, if_pos h]
          exact le_trans (ih t t (List.mem_cons_self t ts)) (le_of_lt h)
        · rw [step, if_neg h]
          exact ih x x (List.mem_cons_self x ts)
      · rcases List.mem_cons.mp hx' with rfl | hx''
        · by_cases h : |da - x.amount_collected| < |da - c.amount_collected|
          · rw [step, if_pos h]
            exact ih x x (List.mem_cons_self x ts)
          · rw [step, if_neg h]
            exact le_trans (ih c c (List.mem_cons_self c ts)) (not_lt.mp h)
        · by_cases h : |da - t.amount_collected| < |da - c.amount_collected|
          · rw [step, if_pos h]
            exact ih t x (List.mem_cons_of_mem t hx'')
          · rw [step, if_neg h]
            exact ih c x (List.mem_cons_of_mem c hx'')

theorem pct_diff_nonneg (da ta : ℚ) : 0 ≤ pct_diff da ta := by
  unfold pct_diff
  split
  next h => positivity
  next => exact le_refl 0

/-- C3: for every drain event with at least one same-tank, same-ticket-date
candidate ticket, the reconciler selects a candidate minimizing
`|total_collected − amount_collected|` and classifies the result `MATCHED`
exactly when `pct_diff ≤ 2.0`; for `pct_diff` strictly above 2.0 the status
is `UNDER_REPORTED` when `amount_collected < total_collected` and
`OVER_REPORTED` otherwise, with the signed difference
`amount_collected − total_collected` recorded. -/
theorem claim_C3_reconciliation (drains : List DrainEvent) (tickets : List Ticket)
    (r : MatchRow) (hr : r ∈ match_drains_to_tickets drains tickets)
    (hc : candidateTickets tickets r.cauldron_id r.ticket_date ≠ []) :
    ∃ best ∈ candidateTickets tickets r.cauldron_id r.ticket_date,
      r.ticket_id = some best.ticket_id ∧
      r.ticket_amount = some best.amount_collected ∧
      (∀ t ∈ candidateTickets tickets r.cauldron_id r.ticket_date,
        |r.drain_amount - best.amount_collected| ≤ |r.drain_amount - t.amount_collected|) ∧
      r.difference = some (best.amount_collected - r.drain_amount) ∧
      r.difference_pct = some (pct_diff r.drain_amount best.amount_collected) ∧
      (r.status = .MATCHED ↔
        pct_diff r.drain_amount best.amount_collected ≤ TICKET_TOLERANCE_PCT) ∧
      (TICKET_TOLERANCE_PCT < pct_diff r.drain_amount best.amount_collected →
        (r.status = .UNDER_REPORTED ↔ best.amount_collected < r.drain_amount) ∧
        (r.status = .OVER_REPORTED ↔ r.drain_amount ≤ best.amount_collected)) := by
  obtain ⟨d, hd, rfl⟩ := List.mem_map.mp hr
  cases hcand : candidateTickets tickets d.cauldron_id d.ticket_date with
  | nil =>
      exfalso
      simp only [matchOne, hcand] at hc
      exact hc rfl
  | cons c cs =>
      simp only [matchOne, hcand] at hc ⊢
      refine ⟨pickBest d.total_collected c cs, pickBest_mem _ _ _, rfl, rfl,
        pickBest_min _ _ _, rfl, rfl, ?_, ?_⟩
      · -- MATCHED iff pct_diff within tolerance
        have habs : |pct_diff d.total_collected
            (pickBest d.total_collected c cs).amount_collected| =
            pct_diff d.total_collected (pickBest d.total_collected c cs).amount_collected :=
          abs_of_nonneg (pct_diff_nonneg _ _)
        by_cases h : pct_diff d.total_collected
            (pickBest d.total_collected c cs).amount_collected ≤ TICKET_TOLERANCE_PCT
        · simp [habs, h]
        · simp only [habs, h, if_false, iff_false]
          split <;> simp
      · -- strictly above tolerance: UNDER iff under-reported, OVER otherwise
        intro hgt
        have habs : |pct_diff d.total_collected
            (pickBest d.total_collected c cs).amount_collected| =
            pct_diff d.total_collected (pickBest d.total_collected c cs).amount_collected :=
          abs_of_nonneg (pct_diff_nonneg _ _)
        have hnotle : ¬ (|pct_diff d.total_collected
            (pickBest d.total_collected c cs).amount_collected| ≤ TICKET_TOLERANCE_PCT) := by
          rw [habs]
          exact not_le.mpr hgt
        by_cases hu : (pickBest d.total_collected c cs).amount_collected < d.total_collected
        · refine ⟨?_, ?_⟩
          · simp [hnotle, hu]
          · simp [hnotle, hu, not_le.mpr hu]
        · refine ⟨?_, ?_⟩
          · simp [hnotle, hu]
          · simp [hnotle, hu, not_lt.mp hu]

/-- A sample ticket table for the reconciliation witness: two tickets for
cauldron 1 dated day 0, reporting 69 L and 100 L. -/
def sampleTickets : List Ticket :=
  [⟨1, 1, 0, 69, 1⟩, ⟨2, 1, 0, 100, 2⟩]

/-- The row the reconciler produces for `sampleEvent` against
`sampleTickets`. -/
def sampleMatchRow : MatchRow :=
  (match_drains_to_tickets [sampleEvent] sampleTickets).headD default

/-- Witness for C3 on a concrete drain and ticket table. -/
theorem claim_C3_witness :
    sampleMatchRow ∈ match_drains_to_tickets [sampleEvent] sampleTickets ∧
    candidateTickets sampleTickets sampleMatchRow.cauldron_id sampleMatchRow.ticket_date ≠ [] ∧
    (∃ best ∈ candidateTickets sampleTickets sampleMatchRow.cauldron_id sampleMatchRow.ticket_date,
      sampleMatchRow.ticket_id = some best.ticket_id ∧
      sampleMatchRow.ticket_amount = some best.amount_collected ∧
      (∀ t ∈ candidateTickets sampleTickets sampleMatchRow.cauldron_id sampleMatchRow.ticket_date,
        |sampleMatchRow.drain_amount - best.amount_collected| ≤
          |sampleMatchRow.drain_amount - t.amount_collected|) ∧
      sampleMatchRow.difference = some (best.amount_collected - sampleMatchRow.drain_amount) ∧
      sampleMatchRow.difference_pct =
        some (pct_diff sampleMatchRow.drain_amount best.amount_collected) ∧
      (sampleMatchRow.status = .MATCHED ↔
        pct_diff sampleMatchRow.drain_amount best.amount_collected ≤ TICKET_TOLERANCE_PCT) ∧
      (TICKET_TOLERANCE_PCT < pct_diff sampleMatchRow.drain_amount best.amount_collected →
        (sampleMatchRow.status = .UNDER_REPORTED ↔
          best.amount_collected < sampleMatchRow.drain_amount) ∧
        (sampleMatchRow.status = .OVER_REPORTED ↔
          sampleMatchRow.drain_amount ≤ best.amount_collected))) := by
  have hmem : sampleMatchRow ∈ match_drains_to_tickets [sampleEvent] sampleTickets := by
    rw [show match_drains_to_tickets [sampleEvent] sampleTickets = [sampleMatchRow] by
      with_unfolding_all rfl]
    exact List.mem_singleton_self _
  have hc : candidateTickets sampleTickets sampleMatchRow.cauldron_id
      sampleMatchRow.ticket_date ≠ [] := by
    with_unfolding_all decide
  exact ⟨hmem, hc, claim_C3_reconciliation [sampleEvent] sampleTickets sampleMatchRow hmem hc⟩

/-- C8: the reconciler does *not* tolerate an empty ticket table combined
with a non-empty drain table: `transform_tickets` on an empty source
yields a zero-column frame, and the column lookup in the loop raises
`KeyError`.  With no drains the loop body never runs and the result is
empty; at the row level (the behaviour §7 of the spec asks for) an empty
candidate set would produce a `NO_TICKET_FOUND`-only table. -/
theorem claim_C8_empty_ticket_table :
    match_drains_to_tickets_df [sampleEvent] (transform_tickets []) = .error () ∧
    match_drains_to_tickets_df [] (transform_tickets []) = .ok [] ∧
    (match_drains_to_tickets [sampleEvent] []).map (fun r => r.status) =
      [MatchStatus.NO_TICKET_FOUND] :=
  ⟨rfl, rfl, rfl⟩

/-! ## Suspicious pattern aggregation (`backend/reporting.py`,
`get_suspicious_patterns`; the copy in `analysis.py` is identical) -/

/-- `status.isin(['UNDER_REPORTED', 'NO_TICKET_FOUND'])`. -/
def suspPred (r : MatchRow) : Bool :=
  r.status == .UNDER_REPORTED || r.status == .NO_TICKET_FOUND

/-- `status == 'UNDER_REPORTED'`. -/
def underPred (r : MatchRow) : Bool := r.status == .UNDER_REPORTED

/-- The suspicious rows of a reconciliation table. -/
def suspiciousOf (rows : List MatchRow) : List MatchRow := rows.filter suspPred

/-- One group of `suspicious.groupby('cauldron_id')` after aggregation:
`difference ↦ abs(sum)` (pandas `sum` skips missing values) and
`drain_amount ↦ count` (the group size; `drain_amount` is never missing). -/
structure Group where
  cauldron_id : ℕ
  missing_volume : ℚ
  event_count : ℕ
deriving DecidableEq, Repr, Inhabited

/-- Descending order on aggregated missing volume
(`sort_values('difference', ascending=False)`). -/
def volGE (a b : Group) : Prop := b.missing_volume ≤ a.missing_volume

instance : DecidableRel volGE :=
  fun a b => inferInstanceAs (Decidable (b.missing_volume ≤ a.missing_volume))

instance : IsTotal Group volGE := ⟨fun a b => le_total b.missing_volume a.missing_volume⟩

instance : IsTrans Group volGE := ⟨fun _ _ _ hab hbc => le_trans hbc hab⟩

/-- `suspicious.groupby('cauldron_id').agg(...)`: pandas `groupby` orders
the groups by ascending key. -/
def groupByCauldron (rows : List MatchRow) : List Group :=
  (((rows.map (fun r => r.cauldron_id)).dedup).insertionSort (· ≤ ·)).map fun k =>
    let g := rows.filter fun r => r.cauldron_id == k
    { cauldron_id := k,
      missing_volume := |qsum (g.filterMap (fun r => r.difference))|,
      event_count := g.length }

/-- The dictionary returned by `get_suspicious_patterns`
(`consistent_under_reporters` is initialized and never populated). -/
structure Patterns where
  systematic_theft : List Group
  consistent_under_reporters : List Group
  missing_tickets : ℕ
  total_unaccounted : ℚ
deriving DecidableEq, Repr, Inhabited

/-- `get_suspicious_patterns(df_matched)`: `none` models the bare `{}`
returned for an empty input table. -/
def get_suspicious_patterns (rows : List MatchRow) : Option Patterns :=
  if rows.isEmpty then none
  else
    let susp := suspiciousOf rows
    let missing := (rows.filter fun r => r.status == .NO_TICKET_FOUND).length
    if susp.isEmpty then
      some { systematic_theft := [], consistent_under_reporters := [],
             missing_tickets := missing, total_unaccounted := 0 }
    else
      let total := |qsum (susp.filterMap (fun r => r.difference))|
      let sorted := (groupByCauldron susp).insertionSort volGE
      let theft := (sorted.take 5).filter fun g => decide (3 ≤ g.event_count)
      some { systematic_theft := theft, consistent_under_reporters := [],
             missing_tickets := missing, total_unaccounted := total }

/-! ### Ranking lemmas for the descending volume sort -/

theorem countP_gt_lt_of_mem_sorted_take (l : List Group) (n : ℕ) (g : Group)
    (hg : g ∈ (l.insertionSort volGE).take n) :
    l.countP (fun h => decide (g.missing_volume < h.missing_volume)) < n := by
  set p : Group → Bool := fun h => decide (g.missing_volume < h.missing_volume) with hp
  have hperm : List.Perm (l.insertionSort volGE) l := List.perm_insertionSort volGE l
  have hsort : (l.insertionSort volGE).Pairwise volGE := List.sorted_insertionSort volGE l
  rw [← hperm.countP_eq p]
  set s := l.insertionSort volGE
  obtain ⟨i, hil, hig⟩ := List.mem_iff_getElem.mp hg
  have hin : i < n := lt_of_lt_of_le hil (by simpa using List.length_take_le n s)
  have his : i < s.length := by
    have := List.length_take_le' n s
    have h2 : (s.take n).length ≤ s.length := by simp
    omega
  have hgi : s[i] = g := by
    rw [← List.getElem_take s]
    exact hig
  have hsplit : s.take i ++ s.drop i = s := List.take_append_drop i s
  have hdrop : s.drop i = g :: s.drop (i + 1) := by
    rw [List.drop_eq_getElem_cons his, hgi]
  have hdrop_zero : (s.drop i).countP p = 0 := by
    apply List.countP_eq_zero.mpr
    intro a ha
    rw [hdrop] at ha
    rcases List.mem_cons.mp ha with rfl | ha'
    · simp [hp]
    · have hpw : (s.drop i).Pairwise volGE := hsort.sublist (List.drop_sublist i s)
      rw [hdrop] at hpw
      have hrel : volGE g a := (List.pairwise_cons.mp hpw).1 a ha'
      simp only [hp, decide_eq_true_eq]
      exact not_lt.mpr hrel
  calc s.countP p = (s.take i).countP p + (s.drop i).countP p := by
        rw [← List.countP_append, hsplit]
    _ = (s.take i).countP p := by rw [hdrop_zero, Nat.add_zero]
    _ ≤ (s.take i).length := List.countP_le_length p
    _ ≤ i := by simpa using List.length_take_le i s
    _ < n := hin

theorem mem_sorted_take_of_countP_ge_le (l : List Group) (n : ℕ) (g : Group)
    (hg : g ∈ l)
    (hc : l.countP (fun h => decide (g.missing_volume ≤ h.missing_volume)) ≤ n) :
    g ∈ (l.insertionSort volGE).take n := by
  set q : Group → Bool := fun h => decide (g.missing_volume ≤ h.missing_volume) with hq
  have hperm : List.Perm (l.insertionSort volGE) l := List.perm_insertionSort volGE l
  have hsort : (l.insertionSort volGE).Pairwise volGE := List.sorted_insertionSort volGE l
  set s := l.insertionSort volGE
  by_contra hng
  have hgs : g ∈ s := hperm.mem_iff.mpr hg
  have hsplit : s.take n ++ s.drop n = s := List.take_append_drop n s
  have hgdrop : g ∈ s.drop n := by
    rcases List.mem_append.mp (by rw [hsplit]; exact hgs) with h | h
    · exact absurd h hng
    · exact h
  have hlen : n < s.length := by
    by_contra hle
    rw [List.drop_eq_nil_of_le (le_of_not_lt hle)] at hgdrop
    simp at hgdrop
  have htake_all : ∀ x ∈ s.take n, q x = true := by
    intro x hx
    have hpw : (s.take n ++ s.drop n).Pairwise volGE := by rwa [hsplit]
    have hrel : volGE x g := (List.pairwise_append.mp hpw).2.2 x hx g hgdrop
    simp only [hq, decide_eq_true_eq]
    exact hrel
  have htake_len : (s.take n).length = n := by
    simp [List.length_take]
    omega
  have h1 : (s.take n).countP q = n := by
    rw [List.countP_eq_length.mpr htake_all, htake_len]
  have h2 : 0 < (s.drop n).countP q := by
    apply List.countP_pos_iff.mpr
    exact ⟨g, hgdrop, by simp [hq]⟩
  have h3 : s.countP q = (s.take n).countP q + (s.drop n).countP q := by
    rw [← List.countP_append, hsplit]
  have h4 : l.countP q = s.countP q := (hperm.countP_eq q).symm
  omega

/-- C5 (amended): a tank appears as a systematic-theft candidate exactly
when it is among the first five tanks in descending missing-volume order
over *all* tanks with suspicious results — regardless of their event
counts — and itself has at least 3 suspicious events.  In particular it
appears whenever it has at least 3 events and at most 5 tanks (itself
included) have missing volume greater than or equal to its own, and every
reported candidate has at most 4 tanks with strictly larger missing
volume; the candidate list is ordered by descending missing volume. -/
theorem claim_C5_amended (rows : List MatchRow) (p : Patterns)
    (hp : get_suspicious_patterns rows = some p) :
    (∀ g ∈ p.systematic_theft, 3 ≤ g.event_count ∧
      (groupByCauldron (suspiciousOf rows)).countP
        (fun h => decide (g.missing_volume < h.missing_volume)) ≤ 4) ∧
    (∀ g ∈ groupByCauldron (suspiciousOf rows), 3 ≤ g.event_count →
      (groupByCauldron (suspiciousOf rows)).countP
        (fun h => decide (g.missing_volume ≤ h.missing_volume)) ≤ 5 →
      g ∈ p.systematic_theft) ∧
    p.systematic_theft.Pairwise volGE := by
  simp only [get_suspicious_patterns] at hp
  split at hp
  · exact absurd hp (by simp)
  · split at hp
    next hse =>
      -- no suspicious rows at all
      obtain rfl : _ = p := Option.some.injEq _ _ ▸ hp
      rw [show suspiciousOf rows = [] from List.isEmpty_iff.mp hse]
      refine ⟨by simp, ?_, by simp⟩
      intro g hg
      simp [groupByCauldron] at hg
    next hse =>
      obtain rfl : _ = p := Option.some.injEq _ _ ▸ hp
      refine ⟨?_, ?_, ?_⟩
      · intro g hg
        simp only at hg
        obtain ⟨hgt, hgc⟩ := List.mem_filter.mp hg
        refine ⟨of_decide_eq_true hgc, ?_⟩
        have := countP_gt_lt_of_mem_sorted_take (groupByCauldron (suspiciousOf rows)) 5 g hgt
        omega
      · intro g hgg h3 hc5
        simp only
        exact List.mem_filter.mpr
          ⟨mem_sorted_take_of_countP_ge_le (groupByCauldron (suspiciousOf rows)) 5 g hgg hc5,
           decide_eq_true h3⟩
      · have hsort : ((groupByCauldron (suspiciousOf rows)).insertionSort volGE).Pairwise volGE :=
          List.sorted_insertionSort volGE _
        exact hsort.sublist
          ((List.filter_sublist _).trans (List.take_sublist _ _))

/-- A plausible `UNDER_REPORTED` reconciliation row for tank `cid` with
signed difference `d` (negative for an under-report). -/
def underRow (cid : ℕ) (d : ℚ) : MatchRow :=
  { cauldron_id := cid, drain_date := 0, ticket_date := 0, drain_time := 0,
    drain_amount := -d + 1, ticket_id := some 0, ticket_amount := some 1,
    difference := some d, difference_pct := some 50, status := .UNDER_REPORTED }

/-- Five tanks with one large under-report each, and tank 6 with three
small under-reports. -/
def c5rows : List MatchRow :=
  [underRow 1 (-100), underRow 2 (-100), underRow 3 (-100), underRow 4 (-100),
   underRow 5 (-100), underRow 6 (-1), underRow 6 (-1), underRow 6 (-1)]

/-- Counterexample for C5 as stated: tank 6 has three suspicious events
and is displaced from the candidate list *only by tanks with a single
event each* (the `head(5)` cut happens before the `≥ 3` filter), so the
reported candidate list is empty. -/
theorem claim_C5_counterexample :
    (get_suspicious_patterns c5rows).map (fun p => p.systematic_theft) = some [] ∧
    (⟨6, 3, 3⟩ : Group) ∈ groupByCauldron (suspiciousOf c5rows) := by
  constructor
  · with_unfolding_all rfl
  · have : groupByCauldron (suspiciousOf c5rows) =
        [⟨1, 100, 1⟩, ⟨2, 100, 1⟩, ⟨3, 100, 1⟩, ⟨4, 100, 1⟩, ⟨5, 100, 1⟩, ⟨6, 3, 3⟩] := by
      with_unfolding_all rfl
    rw [this]
    simp

/-- Three small under-reports for tank 1: it qualifies and is reported. -/
def c5wrows : List MatchRow := [underRow 1 (-1), underRow 1 (-1), underRow 1 (-1)]

/-- The patterns dictionary computed on `c5wrows`. -/
def c5wpatterns : Patterns := (get_suspicious_patterns c5wrows).getD default

/-- Witness for the amended C5 on a concrete input where a tank with three
suspicious events is reported. -/
theorem claim_C5_witness :
    get_suspicious_patterns c5wrows = some c5wpatterns ∧
    (⟨1, 3, 3⟩ : Group) ∈ groupByCauldron (suspiciousOf c5wrows) ∧
    3 ≤ (⟨1, 3, 3⟩ : Group).event_count ∧
    (groupByCauldron (suspiciousOf c5wrows)).countP
      (fun h => decide ((⟨1, 3, 3⟩ : Group).missing_volume ≤ h.missing_volume)) ≤ 5 ∧
    (⟨1, 3, 3⟩ : Group) ∈ c5wpatterns.systematic_theft := by
  have hp : get_suspicious_patterns c5wrows = some c5wpatterns := by
    with_unfolding_all rfl
  have hgrp : groupByCauldron (suspiciousOf c5wrows) = [⟨1, 3, 3⟩] := by
    with_unfolding_all rfl
  have hg : (⟨1, 3, 3⟩ : Group) ∈ groupByCauldron (suspiciousOf c5wrows) := by
    rw [hgrp]; simp
  have hcount : (groupByCauldron (suspiciousOf c5wrows)).countP
      (fun h => decide ((⟨1, 3, 3⟩ : Group).missing_volume ≤ h.missing_volume)) ≤ 5 := by
    rw [hgrp]
    with_unfolding_all decide
  exact ⟨hp, hg, by norm_num, hcount,
    (claim_C5_amended c5wrows c5wpatterns hp).2.1 ⟨1, 3, 3⟩ hg (by norm_num) hcount⟩

/-! ### Signed differences of reconciliation rows -/

theorem matchOne_under_diff (tickets : List Ticket) (d : DrainEvent) :
    ((matchOne tickets d).status = .UNDER_REPORTED →
      ∃ x, (matchOne tickets d).difference = some x ∧ x < 0) ∧
    ((matchOne tickets d).status = .NO_TICKET_FOUND →
      (matchOne tickets d).difference = none) := by
  cases hcand : candidateTickets tickets d.cauldron_id d.ticket_date with
  | nil => simp [matchOne, hcand]
  | cons c cs =>
      simp only [matchOne, hcand]
      constructor
      · intro hst
        refine ⟨(pickBest d.total_collected c cs).amount_collected - d.total_collected, rfl, ?_⟩
        by_cases h1 : |pct_diff d.total_collected
            (pickBest d.total_collected c cs).amount_collected| ≤ TICKET_TOLERANCE_PCT
        · rw [if_pos h1] at hst
          exact absurd hst (by simp)
        · rw [if_neg h1] at hst
          by_cases h2 : (pickBest d.total_collected c cs).amount_collected < d.total_collected
          · exact sub_neg.mpr h2
          · rw [if_neg h2] at hst
            exact absurd hst (by simp)
      · intro hst
        split at hst
        · exact absurd hst (by simp)
        · split at hst <;> exact absurd hst (by simp)

theorem match_under_status {drains : List DrainEvent} {tickets : List Ticket}
    {r : MatchRow} (hr : r ∈ (match_drains_to_tickets drains tickets).filter underPred) :
    ∃ x, r.difference = some x ∧ x < 0 := by
  obtain ⟨hmem, hu⟩ := List.mem_filter.mp hr
  obtain ⟨d, _, rfl⟩ := List.mem_map.mp hmem
  apply (matchOne_under_diff tickets d).1
  simpa [underPred] using hu

theorem qsum_nonpos (xs : List ℚ) (h : ∀ x ∈ xs, x ≤ 0) : qsum xs ≤ 0 := by
  induction xs with
  | nil => simp [qsum]
  | cons x xs ih =>
      have : qsum (x :: xs) = x + qsum xs := rfl
      rw [this]
      have hx := h x (List.mem_cons_self x xs)
      have hxs := ih fun y hy => h y (List.mem_cons_of_mem x hy)
      linarith

theorem abs_qsum_of_nonpos (xs : List ℚ) (h : ∀ x ∈ xs, x ≤ 0) :
    |qsum xs| = qsum (xs.map fun x => |x|) := by
  induction xs with
  | nil => simp [qsum]
  | cons x xs ih =>
      have hx := h x (List.mem_cons_self x xs)
      have hxs : ∀ y ∈ xs, y ≤ 0 := fun y hy => h y (List.mem_cons_of_mem x hy)
      have hsum := qsum_nonpos xs hxs
      have h1 : qsum (x :: xs) = x + qsum xs := rfl
      have h2 : qsum ((x :: xs).map fun y => |y|) = |x| + qsum (xs.map fun y => |y|) := rfl
      rw [h1, h2, ← ih hxs, abs_of_nonpos (by linarith), abs_of_nonpos hx,
        abs_of_nonpos hsum, neg_add]

/-- `pandas.sum` over the suspicious rows' differences skips the missing
(`NO_TICKET_FOUND`) entries, so only the `UNDER_REPORTED` differences are
summed. -/
theorem suspicious_filterMap_eq (drains : List DrainEvent) (tickets : List Ticket) :
    (((match_drains_to_tickets drains tickets).filter suspPred).filterMap
      fun r => r.difference) =
    (((match_drains_to_tickets drains tickets).filter underPred).filterMap
      fun r => r.difference) := by
  induction drains with
  | nil => rfl
  | cons d ds ih =>
      simp only [match_drains_to_tickets, List.map_cons, List.filter_cons] at ih ⊢
      obtain ⟨hunder, hnot⟩ := matchOne_under_diff tickets d
      cases hst : (matchOne tickets d).status with
      | UNDER_REPORTED =>
          obtain ⟨x, hx, _⟩ := hunder hst
          have hs : suspPred (matchOne tickets d) = true := by simp [suspPred, hst]
          have hu : underPred (matchOne tickets d) = true := by simp [underPred, hst]
          simp only [hs, hu, if_true, List.filterMap_cons, hx]
          rw [ih]
      | NO_TICKET_FOUND =>
          have hd := hnot hst
          have hs : suspPred (matchOne tickets d) = true := by simp [suspPred, hst]
          have hu : underPred (matchOne tickets d) = false := by simp [underPred, hst]
          simp only [hs, hu, if_true, Bool.false_eq_true, if_false, List.filterMap_cons, hd]
          exact ih
      | MATCHED =>
          have hs : suspPred (matchOne tickets d) = false := by simp [suspPred, hst]
          have hu : underPred (matchOne tickets d) = false := by simp [underPred, hst]
          simp only [hs, hu, Bool.false_eq_true, if_false]
          exact ih
      | OVER_REPORTED =>
          have hs : suspPred (matchOne tickets d) = false := by simp [suspPred, hst]
          have hu : underPred (matchOne tickets d) = false := by simp [underPred, hst]
          simp only [hs, hu, Bool.false_eq_true, if_false]
          exact ih

theorem map_abs_getD (l : List MatchRow)
    (h : ∀ r ∈ l, ∃ x, r.difference = some x ∧ x < 0) :
    l.map (fun r => |r.difference.getD 0|) =
      (l.filterMap fun r => r.difference).map fun x => |x| := by
  induction l with
  | nil => rfl
  | cons r rs ih =>
      obtain ⟨x, hx, _⟩ := h r (List.mem_cons_self r rs)
      simp only [List.map_cons, List.filterMap_cons, hx, Option.getD_some]
      rw [ih fun s hs => h s (List.mem_cons_of_mem r hs)]

/-- C4 (amended): the total unaccounted volume reported by
suspicious-pattern aggregation is the absolute value of the pandas sum of
the `difference` column over the suspicious rows, in which the missing
differences of `NO_TICKET_FOUND` rows are *skipped*: a `NO_TICKET_FOUND`
result contributes 0, not its drain's `total_collected`, and the total
equals the sum of `|difference|` over the `UNDER_REPORTED` rows alone. -/
theorem claim_C4_amended (drains : List DrainEvent) (tickets : List Ticket)
    (p : Patterns)
    (hp : get_suspicious_patterns (match_drains_to_tickets drains tickets) = some p) :
    p.total_unaccounted =
      qsum (((match_drains_to_tickets drains tickets).filter underPred).map
        fun r => |r.difference.getD 0|) := by
  simp only [get_suspicious_patterns] at hp
  split at hp
  · exact absurd hp (by simp)
  · split at hp
    next hse =>
      obtain rfl : _ = p := Option.some.injEq _ _ ▸ hp
      have hempty : (match_drains_to_tickets drains tickets).filter underPred = [] := by
        have hnil : (match_drains_to_tickets drains tickets).filter suspPred = [] :=
          List.isEmpty_iff.mp hse
        have hall := List.filter_eq_nil_iff.mp hnil
        apply List.filter_eq_nil_iff.mpr
        intro r hr
        intro hu
        apply hall r hr
        have : r.status = .UNDER_REPORTED := by simpa [underPred] using hu
        simp [suspPred, this]
      rw [hempty]
      rfl
    next hse =>
      obtain rfl : _ = p := Option.some.injEq _ _ ▸ hp
      simp only
      have hneg : ∀ x ∈ ((match_drains_to_tickets drains tickets).filter underPred).filterMap
          (fun r => r.difference), x ≤ 0 := by
        intro x hx
        obtain ⟨r, hr, hrx⟩ := List.mem_filterMap.mp hx
        obtain ⟨y, hy, hyneg⟩ := match_under_status hr
        rw [hy] at hrx
        obtain rfl : y = x := Option.some.injEq _ _ ▸ hrx
        exact le_of_lt hyneg
      calc |qsum (((match_drains_to_tickets drains tickets).filter suspPred).filterMap
              fun r => r.difference)|
          = |qsum (((match_drains_to_tickets drains tickets).filter underPred).filterMap
              fun r => r.difference)| := by rw [suspicious_filterMap_eq]
        _ = qsum ((((match_drains_to_tickets drains tickets).filter underPred).filterMap
              (fun r => r.difference)).map fun x => |x|) := abs_qsum_of_nonpos _ hneg
        _ = qsum (((match_drains_to_tickets drains tickets).filter underPred).map
              fun r => |r.difference.getD 0|) := by
            rw [map_abs_getD _ fun r hr => match_under_status hr]

/-- A ticket table whose single ticket belongs to a different tank, so the
sample drain gets no candidate. -/
def c4tickets : List Ticket := [⟨1, 2, 0, 69, 1⟩]

/-- Counterexample for C4 as stated: the sample drain reconciles to
`NO_TICKET_FOUND` and its `total_collected` is 70, yet the reported total
unaccounted volume is 0 (the missing difference is skipped by the sum),
not 70 as the claim requires. -/
theorem claim_C4_counterexample :
    ((match_drains_to_tickets [sampleEvent] c4tickets).map fun r => r.status) =
      [MatchStatus.NO_TICKET_FOUND] ∧
    ((get_suspicious_patterns (match_drains_to_tickets [sampleEvent] c4tickets)).map
      fun p => p.total_unaccounted) = some 0 ∧
    sampleEvent.total_collected = 70 ∧ (0 : ℚ) ≠ 70 := by
  refine ⟨?_, ?_, ?_, by norm_num⟩
  · with_unfolding_all rfl
  · with_unfolding_all rfl
  · with_unfolding_all rfl

/-- A ticket under-reporting the sample drain by 10 L. -/
def c4wtickets : List Ticket := [⟨1, 1, 0, 60, 1⟩]

/-- The patterns dictionary computed on the under-reported sample. -/
def c4wpatterns : Patterns :=
  (get_suspicious_patterns (match_drains_to_tickets [sampleEvent] c4wtickets)).getD default

/-- Witness for the amended C4 on a concrete under-reported drain. -/
theorem claim_C4_witness :
    get_suspicious_patterns (match_drains_to_tickets [sampleEvent] c4wtickets) =
      some c4wpatterns ∧
    c4wpatterns.total_unaccounted =
      qsum (((match_drains_to_tickets [sampleEvent] c4wtickets).filter underPred).map
        fun r => |r.difference.getD 0|) ∧
    c4wpatterns.total_unaccounted = 10 := by
  have hp : get_suspicious_patterns (match_drains_to_tickets [sampleEvent] c4wtickets) =
      some c4wpatterns := by
    with_unfolding_all rfl
  refine ⟨hp, claim_C4_amended [sampleEvent] c4wtickets c4wpatterns hp, ?_⟩
  with_unfolding_all rfl

/-! ## Overflow priority ranking (`backend/analytics.py`,
`get_overflow_priority`; the copy in `analysis.py` is identical) -/

/-- The fields of an overflow-risk row consumed by the priority ranking
(`calculate_overflow_risk` also emits capacity/utilization diagnostics). -/
structure OverflowRow where
  cauldron_id : ℕ
  current_level : ℚ
  max_volume : ℚ
  hours_to_overflow : ℚ
deriving DecidableEq, Repr, Inhabited

/-- Priority labels (the source strings: `'CRITICAL - OVERDUE'`,
`'URGENT'`, `'HIGH'`, `'MEDIUM'`, `'LOW'`). -/
inductive Priority where
  | CRITICAL_OVERDUE
  | URGENT
  | HIGH
  | MEDIUM
  | LOW
deriving DecidableEq, Repr, Inhabited

/-- One row of the priority table. -/
structure PriorityRow where
  cauldron_id : ℕ
  current_level : ℚ
  max_volume : ℚ
  hours_to_overflow : ℚ
  travel_time_min : ℚ
  effective_hours : ℚ
  priority : Priority
  urgency_score : ℚ
deriving DecidableEq, Repr, Inhabited

/-- `travel_times.get(cauldron_id, 0)`. -/
def travelGet (travel : List (ℕ × ℚ)) (cid : ℕ) : ℚ :=
  ((travel.find? fun p => p.1 == cid).map fun p => p.2).getD 0

/-- Body of the per-cauldron loop of `get_overflow_priority`
(`collection_time = 15` dwell plus a fixed 15-minute buffer). -/
def mkPriorityRow (travel : List (ℕ × ℚ)) (r : OverflowRow) : PriorityRow :=
  let travel_time := travelGet travel r.cauldron_id
  let total_time_needed := (travel_time + 15 + 15) / 60
  let eff := r.hours_to_overflow - total_time_needed
  let pu : Priority × ℚ :=
    if eff < 0 then (.CRITICAL_OVERDUE, 1000)
    else if eff < 6 then (.URGENT, 100 / max eff (1 / 10))
    else if eff < 12 then (.HIGH, 50 / eff)
    else if eff < 24 then (.MEDIUM, 20 / eff)
    else (.LOW, 10 / eff)
  { cauldron_id := r.cauldron_id, current_level := r.current_level,
    max_volume := r.max_volume, hours_to_overflow := r.hours_to_overflow,
    travel_time_min := travel_time, effective_hours := eff,
    priority := pu.1, urgency_score := pu.2 }

/-- Descending order on urgency score
(`sort_values('urgency_score', ascending=False)`). -/
def urgGE (a b : PriorityRow) : Prop := b.urgency_score ≤ a.urgency_score

instance : DecidableRel urgGE :=
  fun a b => inferInstanceAs (Decidable (b.urgency_score ≤ a.urgency_score))

instance : IsTotal PriorityRow urgGE := ⟨fun a b => le_total b.urgency_score a.urgency_score⟩

instance : IsTrans PriorityRow urgGE := ⟨fun _ _ _ hab hbc => le_trans hbc hab⟩

/-- `get_overflow_priority(df_overflow, travel_times)`. -/
def get_overflow_priority (rows : List OverflowRow) (travel : List (ℕ × ℚ)) :
    List PriorityRow :=
  if rows.isEmpty then []
  else (rows.map (mkPriorityRow travel)).insertionSort urgGE

theorem mkPriorityRow_spec (travel : List (ℕ × ℚ)) (r : OverflowRow) :
    (mkPriorityRow travel r).effective_hours =
      (mkPriorityRow travel r).hours_to_overflow -
        ((mkPriorityRow travel r).travel_time_min + 15 + 15) / 60 ∧
    ((mkPriorityRow travel r).effective_hours < 0 →
      (mkPriorityRow travel r).priority = .CRITICAL_OVERDUE ∧
      (mkPriorityRow travel r).urgency_score = 1000) ∧
    (0 ≤ (mkPriorityRow travel r).effective_hours →
      (mkPriorityRow travel r).effective_hours < 6 →
      (mkPriorityRow travel r).priority = .URGENT ∧
      (mkPriorityRow travel r).urgency_score =
        100 / max (mkPriorityRow travel r).effective_hours (1 / 10)) ∧
    (6 ≤ (mkPriorityRow travel r).effective_hours →
      (mkPriorityRow travel r).effective_hours < 12 →
      (mkPriorityRow travel r).priority = .HIGH ∧
      (mkPriorityRow travel r).urgency_score = 50 / (mkPriorityRow travel r).effective_hours) ∧
    (12 ≤ (mkPriorityRow travel r).effective_hours →
      (mkPriorityRow travel r).effective_hours < 24 →
      (mkPriorityRow travel r).priority = .MEDIUM ∧
      (mkPriorityRow travel r).urgency_score = 20 / (mkPriorityRow travel r).effective_hours) ∧
    (24 ≤ (mkPriorityRow travel r).effective_hours →
      (mkPriorityRow travel r).priority = .LOW ∧
      (mkPriorityRow travel r).urgency_score = 10 / (mkPriorityRow travel r).effective_hours) := by
  set eff := r.hours_to_overflow - (travelGet travel r.cauldron_id + 15 + 15) / 60 with heff
  have hfield : (mkPriorityRow travel r).effective_hours = eff := rfl
  refine ⟨rfl, ?_, ?_, ?_, ?_, ?_⟩
  · intro h0
    rw [hfield] at h0
    simp only [mkPriorityRow, ← heff, if_pos h0]
    constructor <;> trivial
  · intro h0 h6
    rw [hfield] at h0 h6
    simp only [mkPriorityRow, ← heff, if_neg (not_lt.mpr h0), if_pos h6]
    constructor <;> trivial
  · intro h6 h12
    rw [hfield] at h6 h12
    simp only [mkPriorityRow, ← heff, if_neg (not_lt.mpr (by linarith : (0:ℚ) ≤ eff)),
      if_neg (not_lt.mpr h6), if_pos h12]
    constructor <;> trivial
  · intro h12 h24
    rw [hfield] at h12 h24
    simp only [mkPriorityRow, ← heff, if_neg (not_lt.mpr (by linarith : (0:ℚ) ≤ eff)),
      if_neg (not_lt.mpr (by linarith : (6:ℚ) ≤ eff)), if_neg (not_lt.mpr h12), if_pos h24]
    constructor <;> trivial
  · intro h24
    rw [hfield] at h24
    simp only [mkPriorityRow, ← heff, if_neg (not_lt.mpr (by linarith : (0:ℚ) ≤ eff)),
      if_neg (not_lt.mpr (by linarith : (6:ℚ) ≤ eff)),
      if_neg (not_lt.mpr (by linarith : (12:ℚ) ≤ eff)), if_neg (not_lt.mpr h24)]
    constructor <;> trivial

/-- C6: every priority entry has
`effective_hours = hours_to_overflow − (travel_time_minutes + 15 + 15)/60`;
`effective_hours < 0` gives `CRITICAL - OVERDUE` with a fixed urgency score
of 1000, `< 6` gives `100 / max(effective_hours, 0.1)`, `< 12` gives
`50 / effective_hours`, `< 24` gives `20 / effective_hours`, otherwise
`10 / effective_hours`; and the priority list is sorted by descending
urgency score. -/
theorem claim_C6_overflow_priority (rows : List OverflowRow) (travel : List (ℕ × ℚ)) :
    (∀ e ∈ get_overflow_priority rows travel,
      e.effective_hours = e.hours_to_overflow - (e.travel_time_min + 15 + 15) / 60 ∧
      (e.effective_hours < 0 →
        e.priority = .CRITICAL_OVERDUE ∧ e.urgency_score = 1000) ∧
      (0 ≤ e.effective_hours → e.effective_hours < 6 →
        e.priority = .URGENT ∧ e.urgency_score = 100 / max e.effective_hours (1 / 10)) ∧
      (6 ≤ e.effective_hours → e.effective_hours < 12 →
        e.priority = .HIGH ∧ e.urgency_score = 50 / e.effective_hours) ∧
      (12 ≤ e.effective_hours → e.effective_hours < 24 →
        e.priority = .MEDIUM ∧ e.urgency_score = 20 / e.effective_hours) ∧
      (24 ≤ e.effective_hours →
        e.priority = .LOW ∧ e.urgency_score = 10 / e.effective_hours)) ∧
    (get_overflow_priority rows travel).Pairwise urgGE := by
  constructor
  · intro e he
    unfold get_overflow_priority at he
    split at he
    · simp at he
    · have hmem : e ∈ rows.map (mkPriorityRow travel) :=
        (List.perm_insertionSort urgGE _).mem_iff.mp he
      obtain ⟨r, _, rfl⟩ := List.mem_map.mp hmem
      exact mkPriorityRow_spec travel r
  · unfold get_overflow_priority
    split
    · simp
    · exact List.sorted_insertionSort urgGE _

/-- Overflow rows for the C6 witness: a tank 99.5 hours from overflow and
one 0.5 effective hours away. -/
def c6rows : List OverflowRow := [⟨1, 900, 1000, 100⟩, ⟨2, 990, 1000, 1⟩]

/-- The URGENT entry the ranking produces for tank 2 with no travel-time
entry (effective hours `1 − 0.5 = 0.5`, score `100/0.5 = 200`). -/
def c6e : PriorityRow := ⟨2, 990, 1000, 1, 0, 1 / 2, Priority.URGENT, 200⟩

/-- Witness for C6 on a concrete overflow table. -/
theorem claim_C6_witness :
    c6e ∈ get_overflow_priority c6rows [] ∧
    (0 : ℚ) ≤ c6e.effective_hours ∧ c6e.effective_hours < 6 ∧
    c6e.priority = .URGENT ∧
    c6e.urgency_score = 100 / max c6e.effective_hours (1 / 10) ∧
    (get_overflow_priority c6rows []).Pairwise urgGE := by
  have hmem : c6e ∈ get_overflow_priority c6rows [] := by
    rw [show get_overflow_priority c6rows [] =
      [c6e, ⟨1, 900, 1000, 100, 0, 199 / 2, Priority.LOW, 20 / 199⟩] by
        with_unfolding_all rfl]
    simp
  have hspec := (claim_C6_overflow_priority c6rows []).1 c6e hmem
  have h0 : (0 : ℚ) ≤ c6e.effective_hours := by norm_num [c6e]
  have h6 : c6e.effective_hours < 6 := by norm_num [c6e]
  exact ⟨hmem, h0, h6, (hspec.2.2.1 h0 h6).1, (hspec.2.2.1 h0 h6).2,
    (claim_C6_overflow_priority c6rows []).2⟩

/-! ## Courier trust scores (`backend/reporting.py`,
`get_witch_performance`; the copy in `analysis.py` is identical) -/

/-- Courier risk labels (`'HIGH RISK'`, `'MODERATE'`, `'RELIABLE'`). -/
inductive RiskLevel where
  | HIGH_RISK
  | MODERATE
  | RELIABLE
deriving DecidableEq, Repr, Inhabited

/-- `trust_score = min(100, max(0, 100 − abs(avg)·5 − suspicious·10))`. -/
def trust_score_formula (avg : ℚ) (suspicious_count : ℕ) : ℚ :=
  min 100 (max 0 (100 - |avg| * 5 - (suspicious_count : ℚ) * 10))

/-- `risk_level`: `HIGH RISK` below 40, `MODERATE` below 70, else
`RELIABLE`. -/
def risk_level_of (ts : ℚ) : RiskLevel :=
  if ts < 40 then .HIGH_RISK else if ts < 70 then .MODERATE else .RELIABLE

/-- One row of the courier-performance table. -/
structure CourierRow where
  courier_id : ℕ
  total_collections : ℕ
  matched_tickets : ℕ
  suspicious_tickets : ℕ
  avg_discrepancy : Option ℚ
  trust_score : ℚ
  risk_level : RiskLevel
deriving DecidableEq, Repr, Inhabited

/-- `pandas.unique`: first occurrence of each value, in encounter order. -/
def dedupFirst : List ℕ → List ℕ
  | [] => []
  | x :: xs => x :: dedupFirst (xs.filter fun y => y != x)
termination_by l => l.length
decreasing_by
  simp only [List.length_cons]
  have := List.length_filter_le (fun y => y != x) xs
  omega

/-- Ascending order on trust score (`sort_values('trust_score')`). -/
def trustLE (a b : CourierRow) : Prop := a.trust_score ≤ b.trust_score

instance : DecidableRel trustLE :=
  fun a b => inferInstanceAs (Decidable (a.trust_score ≤ b.trust_score))

instance : IsTotal CourierRow trustLE := ⟨fun a b => le_total a.trust_score b.trust_score⟩

instance : IsTrans CourierRow trustLE := ⟨fun _ _ _ => le_trans⟩

/-- `get_witch_performance(df_matched, df_tickets)`.  The mean of an empty
`difference` column is the float `NaN`, modelled as `none`; Python's
`max(0, nan)` then returns `0`, so the trust score of that (unreachable in
the pipeline) case is 0. -/
def get_witch_performance (matched : List MatchRow) (tickets : List Ticket) :
    List CourierRow :=
  if matched.isEmpty || tickets.isEmpty then []
  else
    let rows := (dedupFirst (tickets.map fun t => t.courier_id)).filterMap fun cid =>
      let courier_tickets := tickets.filter fun t => t.courier_id == cid
      let cm := matched.filter fun r =>
        match r.ticket_id with
        | some tid => (courier_tickets.map fun t => t.ticket_id).contains tid
        | none => false
      if cm.isEmpty then none
      else
        let diffs := cm.filterMap fun r => r.difference
        let avg : Option ℚ := if diffs.isEmpty then none else some (qsum diffs / diffs.length)
        let suspicious_count := (cm.filter suspPred).length
        let matched_count := (cm.filter fun r => r.status == .MATCHED).length
        let ts : ℚ := match avg with
          | none => 0
          | some a => trust_score_formula a suspicious_count
        some { courier_id := cid, total_collections := cm.length,
               matched_tickets := matched_count, suspicious_tickets := suspicious_count,
               avg_discrepancy := avg, trust_score := ts, risk_level := risk_level_of ts }
    rows.insertionSort trustLE

theorem trust_score_formula_eq_max (a : ℚ) (s : ℕ) :
    trust_score_formula a s = max 0 (100 - |a| * 5 - (s : ℚ) * 10) := by
  unfold trust_score_formula
  apply min_eq_right
  apply max_le (by norm_num)
  have h1 : 0 ≤ |a| * 5 := by positivity
  have h2 : 0 ≤ (s : ℚ) * 10 := by positivity
  linarith

theorem trust_score_formula_succ_lt (a : ℚ) (s : ℕ)
    (h : 0 < trust_score_formula a s) :
    trust_score_formula a (s + 1) < trust_score_formula a s := by
  rw [trust_score_formula_eq_max] at h ⊢
  rw [trust_score_formula_eq_max]
  have hX : 0 < 100 - |a| * 5 - (s : ℚ) * 10 := by
    by_contra hle
    rw [max_eq_left (le_of_not_lt fun hc => hle (by linarith))] at h
    · exact lt_irrefl 0 h
  rw [max_eq_right (le_of_lt hX)]
  push_cast
  apply max_lt hX
  linarith

theorem trust_score_formula_abs_lt (a b : ℚ) (s : ℕ)
    (hab : |a| < |b|) (h : 0 < trust_score_formula a s) :
    trust_score_formula b s < trust_score_formula a s := by
  rw [trust_score_formula_eq_max] at h ⊢
  rw [trust_score_formula_eq_max]
  have hX : 0 < 100 - |a| * 5 - (s : ℚ) * 10 := by
    by_contra hle
    rw [max_eq_left (le_of_not_lt fun hc => hle (by linarith))] at h
    · exact lt_irrefl 0 h
  rw [max_eq_right (le_of_lt hX)]
  apply max_lt hX
  linarith

/-- C9: every courier row's trust score is
`clamp(0, 100, 100 − 5·|mean(signed_difference)| − 10·suspicious_count)`
with `risk_level` `HIGH RISK` below 40, `MODERATE` below 70 and
`RELIABLE` otherwise; holding everything else fixed, one more suspicious
result, or a strictly larger `|avg_signed_difference|`, strictly lowers
the trust score as long as the 0-floor has not been reached. -/
theorem claim_C9_courier_trust (matched : List MatchRow) (tickets : List Ticket) :
    (∀ row ∈ get_witch_performance matched tickets,
      (∀ a, row.avg_discrepancy = some a →
        row.trust_score = trust_score_formula a row.suspicious_tickets) ∧
      (row.trust_score < 40 → row.risk_level = .HIGH_RISK) ∧
      (40 ≤ row.trust_score → row.trust_score < 70 → row.risk_level = .MODERATE) ∧
      (70 ≤ row.trust_score → row.risk_level = .RELIABLE)) ∧
    (∀ a s, trust_score_formula a s =
      min 100 (max 0 (100 - |a| * 5 - (s : ℚ) * 10))) ∧
    (∀ a s, 0 < trust_score_formula a s →
      trust_score_formula a (s + 1) < trust_score_formula a s) ∧
    (∀ a b s, |a| < |b| → 0 < trust_score_formula a s →
      trust_score_formula b s < trust_score_formula a s) := by
  refine ⟨?_, fun a s => rfl, trust_score_formula_succ_lt, trust_score_formula_abs_lt⟩
  intro row hrow
  unfold get_witch_performance at hrow
  split at hrow
  · simp at hrow
  · have hmem : row ∈ (dedupFirst (tickets.map fun t => t.courier_id)).filterMap _ :=
      (List.perm_insertionSort trustLE _).mem_iff.mp hrow
    obtain ⟨cid, _, hcid⟩ := List.mem_filterMap.mp hmem
    simp only at hcid
    split at hcid
    · exact absurd hcid (by simp)
    · obtain rfl : _ = row := Option.some.injEq _ _ ▸ hcid
      refine ⟨?_, ?_, ?_, ?_⟩
      · intro a ha
        simp only at ha ⊢
        rw [ha]
      · intro h40
        simp only [risk_level_of]
        rw [if_pos h40]
      · intro h40 h70
        simp only [risk_level_of] at h40 h70 ⊢
        rw [if_neg (not_lt.mpr h40), if_pos h70]
      · intro h70
        simp only [risk_level_of] at h70 ⊢
        rw [if_neg (not_lt.mpr (by linarith : (40:ℚ) ≤ _)), if_neg (not_lt.mpr h70)]

/-- The courier row computed for the under-reported sample drain: one
collection, one suspicious result, mean difference −10, trust score
`min(100, max(0, 100 − 50 − 10)) = 40`, `MODERATE`. -/
def c9row : CourierRow := ⟨1, 1, 0, 1, some (-10), 40, RiskLevel.MODERATE⟩

/-- Witness for C9 on a concrete reconciliation table. -/
theorem claim_C9_witness :
    c9row ∈ get_witch_performance (match_drains_to_tickets [sampleEvent] c4wtickets)
      c4wtickets ∧
    c9row.avg_discrepancy = some (-10) ∧
    c9row.trust_score = trust_score_formula (-10) c9row.suspicious_tickets ∧
    (40 ≤ c9row.trust_score ∧ c9row.trust_score < 70 ∧ c9row.risk_level = .MODERATE) ∧
    0 < trust_score_formula (-10) 1 ∧
    trust_score_formula (-10) 2 < trust_score_formula (-10) 1 := by
  have hmem : c9row ∈ get_witch_performance
      (match_drains_to_tickets [sampleEvent] c4wtickets) c4wtickets := by
    rw [show get_witch_performance (match_drains_to_tickets [sampleEvent] c4wtickets)
        c4wtickets = [c9row] by with_unfolding_all rfl]
    simp
  have hspec := (claim_C9_courier_trust
    (match_drains_to_tickets [sampleEvent] c4wtickets) c4wtickets).1 c9row hmem
  have hformula : trust_score_formula (-10) 1 = 40 := by
    simp [trust_score_formula]
    norm_num
  have h0 : 0 < trust_score_formula (-10) 1 := by rw [hformula]; norm_num
  refine ⟨hmem, rfl, hspec.1 (-10) rfl, ⟨?_, ?_, ?_⟩, h0,
    (claim_C9_courier_trust (match_drains_to_tickets [sampleEvent] c4wtickets)
      c4wtickets).2.2.1 (-10) 1 h0⟩
  · norm_num [c9row]
  · norm_num [c9row]
  · exact hspec.2.2.1 (by norm_num [c9row]) (by norm_num [c9row])

/-! ## Fill-rate estimation

Two parallel implementations exist in the source: the segment-regression
method (`backend/fill_rates.py`, used by `main.py`) and the pointwise
median method (`analysis.py` `calculate_fill_rates` and its duplicate in
`data_processor.py`, used by `app.py`). -/

/-- Sum of squared deviations from the mean (`scipy.stats.linregress`
denominator `ss_x`). -/
def qvar (xs : List ℚ) : ℚ :=
  let m := qmean xs
  qsum (xs.map fun x => (x - m) ^ 2)

/-- Sum of co-deviations from the means (`scipy.stats.linregress`
numerator `ss_xy`). -/
def qcov (xs ys : List ℚ) : ℚ :=
  let mx := qmean xs
  let my := qmean ys
  qsum ((xs.zip ys).map fun p => (p.1 - mx) * (p.2 - my))

/-- `r_value > c and slope > 0` for `0 < c`, rationally:
`slope = cov/var_x` and `r = cov/√(var_x·var_y)`, so with `var_x > 0` the
conjunction is equivalent to `cov > 0 ∧ cov² > c²·var_x·var_y` (and when
`var_y = 0` scipy sets `r = 0`, matching `cov = 0`). -/
def corrExceeds (xs ys : List ℚ) (c : ℚ) : Bool :=
  decide (0 < qcov xs ys) && decide (c ^ 2 * (qvar xs * qvar ys) < qcov xs ys ^ 2)

/-- A (candidate or merged) filling segment:
`(start_idx, end_idx, start_time, end_time)`. -/
structure Seg where
  start_idx : ℕ
  end_idx : ℕ
  start_time : ℚ
  end_time : ℚ
deriving DecidableEq, Repr, Inhabited

/-- `window_size = max(10, int(window_minutes / sample_interval_min))`
where `sample_interval_min` is the interval between the *first two*
samples (`series.index[1] - series.index[0]`). -/
def sliding_window_size (s : Series) (window_minutes : ℚ) : ℕ :=
  max 10 (pyInt (window_minutes / (timeAt s 1 - timeAt s 0))).toNat

/-- One window inspection of `_identify_filling_segments`: net level rise
above 5 units, regression with `r > 0.85` and positive slope, and span at
least `min_segment_duration_min` minutes. -/
def segCandidate (s : Series) (ws : ℕ) (min_seg : ℚ) (i : ℕ) : Option Seg :=
  let w := (s.drop i).take ws
  if w.length < 3 then none
  else
    let t0 := (w.headD (0, 0)).1
    let xs := w.map fun p => p.1 - t0
    let ys := w.map fun p => p.2
    let level_change := ys.getLastD 0 - ys.headD 0
    if 5 < level_change then
      if corrExceeds xs ys (85 / 100) then
        let tlast := (w.getLastD (0, 0)).1
        if min_seg ≤ tlast - t0 then some ⟨i, i + ws - 1, t0, tlast⟩ else none
      else none
    else none

/-- The `while i + window_size < len(series)` sweep, advancing by
`window_size // 2` each iteration.  The fuel argument only bounds the
number of iterations; with `ws ≥ 10` the loop runs at most
`len/5 + 1 ≤ len + 1` times, so fuel `len + 1` is never exhausted. -/
def segScan (s : Series) (ws : ℕ) (min_seg : ℚ) : ℕ → ℕ → List Seg
  | 0, _ => []
  | fuel + 1, i =>
      if i + ws < s.length then
        match segCandidate s ws min_seg i with
        | some seg => seg :: segScan s ws min_seg fuel (i + ws / 2)
        | none => segScan s ws min_seg fuel (i + ws / 2)
      else []

/-- The raw (pre-merge) list of qualifying windows. -/
def segCandidates (s : Series) (min_seg : ℚ) : List Seg :=
  segScan s (sliding_window_size s 180) min_seg (s.length + 1) 0

/-- Merge temporally close candidates: a segment starting no more than 60
minutes after the previous merged segment's end extends it. -/
def mergeSegs : Seg → List Seg → List Seg
  | cur, [] => [cur]
  | cur, sg :: rest =>
      if sg.start_time ≤ cur.end_time + 60 then
        mergeSegs ⟨cur.start_idx, sg.end_idx, cur.start_time, sg.end_time⟩ rest
      else cur :: mergeSegs sg rest

/-- `_identify_filling_segments(series, min_segment_duration_min)` with
the default 180-minute window. -/
def identify_filling_segments (s : Series) (min_seg : ℚ) : List Seg :=
  if s.length < 10 then []
  else
    match segCandidates s min_seg with
    | [] => []
    | c :: cs => mergeSegs c cs

/-- `_calculate_segment_rate`: regression slope for segments of at least 3
points when `r > 0.7`, otherwise the two-point secant; `none` is `NaN`. -/
def calculate_segment_rate (s : Series) (seg : Seg) : Option ℚ :=
  let data := (s.drop seg.start_idx).take (seg.end_idx - seg.start_idx + 1)
  if data.length < 2 then none
  else
    let xs := data.map fun p => p.1 - seg.start_time
    let ys := data.map fun p => p.2
    if 3 ≤ data.length then
      if corrExceeds xs ys (7 / 10) then some (qcov xs ys / qvar xs) else none
    else
      let dt := xs.getLastD 0 - xs.headD 0
      if 0 < dt then some ((ys.getLastD 0 - ys.headD 0) / dt) else none

/-- `np.percentile` with linear interpolation on the sorted sample. -/
def percentile (l : List ℚ) (p : ℚ) : ℚ :=
  let s := l.insertionSort (· ≤ ·)
  let n := s.length
  if n = 0 then 0
  else
    let h := ((n : ℚ) - 1) * p / 100
    let i := (⌊h⌋).toNat
    let frac := h - (⌊h⌋ : ℚ)
    s.getD i 0 + frac * (s.getD (min (i + 1) (n - 1)) 0 - s.getD i 0)

/-- One row of the backend fill-rate table (without the column name). -/
structure FillRate where
  fill_rate_per_min : ℚ
  fill_rate_per_hour : ℚ
  num_segments : ℕ
  median_segment_rate : ℚ
  mean_segment_rate : ℚ
deriving DecidableEq, Repr, Inhabited

/-- Per-column body of the backend `calculate_fill_rates` loop
(`backend/fill_rates.py`): `none` models the `continue` that skips the
column, leaving the tank without an estimate.  There is no fallback. -/
def backend_fill_rate (raw : RawSeries) : Option FillRate :=
  let s := dropna raw
  if s.length < 10 then none
  else
    let segs := identify_filling_segments s 120
    if segs.isEmpty then none
    else
      let rates := segs.filterMap fun seg =>
        match calculate_segment_rate s seg with
        | some r => if 0 < r then some r else none
        | none => none
      if rates.isEmpty then none
      else
        some { fill_rate_per_min := percentile rates 25,
               fill_rate_per_hour := percentile rates 25 * 60,
               num_segments := rates.length,
               median_segment_rate := listMedian rates,
               mean_segment_rate := qmean rates }

/-- `calculate_fill_rates(df_levels)` (`backend/fill_rates.py`) over the
cauldron columns, keyed by an opaque column identifier. -/
def calculate_fill_rates (cols : List (ℕ × RawSeries)) : List (ℕ × FillRate) :=
  cols.filterMap fun p => (backend_fill_rate p.2).map fun fr => (p.1, fr)

/-- Per-column body of `calculate_fill_rates` in `analysis.py` (the
pointwise-median variant): all pointwise rates between consecutive
samples, positive ones kept, median taken; `none` when fewer than 2
samples remain or no positive rate exists. -/
def median_fill_rate (raw : RawSeries) : Option ℚ :=
  let s := dropna raw
  if s.length < 2 then none
  else
    let pos := (pointwiseRates s).filter fun r => decide (0 < r)
    if pos.isEmpty then none else some (listMedian pos)

/-- `calculate_fill_rates(df_levels)` from `analysis.py`, emitting
per-minute and per-hour rates. -/
def analysis_calculate_fill_rates (cols : List (ℕ × RawSeries)) : List (ℕ × ℚ × ℚ) :=
  cols.filterMap fun p => (median_fill_rate p.2).map fun r => (p.1, r, r * 60)

theorem listMedian_pos (l : List ℚ) (hne : l ≠ []) (hpos : ∀ x ∈ l, 0 < x) :
    0 < listMedian l := by
  have hperm : List.Perm (l.insertionSort (· ≤ ·)) l :=
    List.perm_insertionSort (· ≤ ·) l
  set s := l.insertionSort (· ≤ ·) with hs
  have hspos : ∀ x ∈ s, 0 < x := fun x hx => hpos x (hperm.mem_iff.mp hx)
  have hlen : 0 < s.length := by
    rw [hperm.length_eq]
    exact List.length_pos.mpr hne
  have hexp : listMedian l =
      if s.length % 2 = 1 then s.getD (s.length / 2) 0
      else (s.getD (s.length / 2 - 1) 0 + s.getD (s.length / 2) 0) / 2 := rfl
  rw [hexp]
  split
  next hodd =>
    have hlt : s.length / 2 < s.length := Nat.div_lt_self hlen (by norm_num)
    rw [List.getD_eq_getElem s 0 hlt]
    exact hspos _ (List.getElem_mem hlt)
  next heven =>
    have h2 : 2 ≤ s.length := by
      rcases Nat.lt_or_ge s.length 2 with h | h
      · interval_cases hl : s.length <;> simp_all
      · exact h
    have hlt1 : s.length / 2 - 1 < s.length := by omega
    have hlt2 : s.length / 2 < s.length := Nat.div_lt_self hlen (by norm_num)
    rw [List.getD_eq_getElem s 0 hlt1, List.getD_eq_getElem s 0 hlt2]
    have p1 := hspos _ (List.getElem_mem hlt1)
    have p2 := hspos _ (List.getElem_mem hlt2)
    linarith

/-- A 5-sample series with uniformly positive pointwise rates. -/
def s2c : RawSeries := [(0, some 0), (10, some 30), (20, some 60), (30, some 90), (40, some 120)]

/-- Counterexample for C2 as stated: this tank has 5 non-missing samples
and only positive pointwise rates, so the claimed fallback would yield
the median rate 3; the segment-method estimator — the estimator wired
into the pipeline (`main.py` uses `backend/fill_rates.py`) — yields *no*
estimate at all, because it skips any column with fewer than 10 samples
and never falls back.  The median variant is a separate parallel
implementation (`analysis.py`), not a fallback path. -/
theorem claim_C2_counterexample :
    (dropna s2c).length = 5 ∧
    2 ≤ (dropna s2c).length ∧
    median_fill_rate s2c = some 3 ∧
    backend_fill_rate s2c = none ∧
    calculate_fill_rates [(1, s2c)] = [] := by
  refine ⟨?_, ?_, ?_, ?_, ?_⟩
  · with_unfolding_all rfl
  · with_unfolding_all decide
  · with_unfolding_all rfl
  · with_unfolding_all rfl
  · with_unfolding_all rfl

/-- C2 (amended): the segment-method estimator yields no estimate for a
tank with fewer than 10 non-missing samples, and likewise when segment
identification finds no qualifying segments — it does not fall back.
The separate pointwise-median estimator computes all pointwise rates
between consecutive samples, keeps the positive ones and takes their
median; it yields no estimate exactly when the tank has fewer than 2
non-missing samples or no positive pointwise rate, and any estimate it
does yield is the (positive) median of the positive pointwise rates. -/
theorem claim_C2_amended (raw : RawSeries) :
    ((dropna raw).length < 10 → backend_fill_rate raw = none) ∧
    (identify_filling_segments (dropna raw) 120 = [] → backend_fill_rate raw = none) ∧
    (median_fill_rate raw = none ↔
      ((dropna raw).length < 2 ∨
        (pointwiseRates (dropna raw)).filter (fun r => decide (0 < r)) = [])) ∧
    (∀ r, median_fill_rate raw = some r →
      r = listMedian ((pointwiseRates (dropna raw)).filter fun r => decide (0 < r)) ∧
      0 < r) := by
  refine ⟨?_, ?_, ?_, ?_⟩
  · intro hlen
    simp only [backend_fill_rate]
    rw [if_pos hlen]
  · intro hseg
    simp only [backend_fill_rate]
    by_cases hlen : (dropna raw).length < 10
    · rw [if_pos hlen]
    · rw [if_neg hlen, hseg]
      simp
  · simp only [median_fill_rate]
    by_cases hlen : (dropna raw).length < 2
    · simp [hlen]
    · rw [if_neg hlen]
      by_cases hpos : ((pointwiseRates (dropna raw)).filter fun r => decide (0 < r)).isEmpty
      · simp [hpos, List.isEmpty_iff.mp hpos, hlen]
      · simp only [hpos, Bool.false_eq_true, if_false]
        constructor
        · intro hcontra
          exact absurd hcontra (by simp)
        · rintro (h | h)
          · exact absurd h hlen
          · exact absurd (List.isEmpty_iff.mpr h) hpos
  · intro r hr
    simp only [median_fill_rate] at hr
    split at hr
    · exact absurd hr (by simp)
    · split at hr
      · exact absurd hr (by simp)
      next hpos =>
        obtain rfl : _ = r := Option.some.injEq _ _ ▸ hr
        refine ⟨rfl, ?_⟩
        apply listMedian_pos
        · intro hcontra
          exact hpos (List.isEmpty_iff.mpr hcontra)
        · intro x hx
          have := List.mem_filter.mp hx
          exact of_decide_eq_true this.2

/-- Witness for the amended C2: the 5-sample tank exercises the
short-series branch of the segment estimator and the positive-median
branch of the pointwise estimator. -/
theorem claim_C2_witness :
    (dropna s2c).length < 10 ∧
    backend_fill_rate s2c = none ∧
    median_fill_rate s2c = some 3 ∧
    (3 : ℚ) = listMedian ((pointwiseRates (dropna s2c)).filter fun r => decide (0 < r)) ∧
    (0 : ℚ) < 3 := by
  have hlen : (dropna s2c).length < 10 := by with_unfolding_all decide
  have hsome : median_fill_rate s2c = some 3 := by with_unfolding_all rfl
  obtain ⟨hmed, hpos⟩ := (claim_C2_amended s2c).2.2.2 3 hsome
  exact ⟨hlen, (claim_C2_amended s2c).1 hlen, hsome, hmed, hpos⟩

/-- Modelled from the spec: the window length the claim describes, the
fixed 180-minute duration divided by the *median* sampling interval of
the series (the source instead uses the first interval with a floor of
10 samples). -/
def sliding_window_size_spec (s : Series) (window_minutes : ℚ) : ℕ :=
  (pyInt (window_minutes /
    listMedian ((List.range (s.length - 1)).map fun i => timeAt s (i + 1) - timeAt s i))).toNat

/-- A 13-sample series whose first sampling interval (5 min) differs from
its median sampling interval (15 min). -/
def s7c : RawSeries :=
  [(0, some 0), (5, some 5), (20, some 20), (35, some 35), (50, some 50), (65, some 65),
   (80, some 80), (95, some 95), (110, some 110), (125, some 125), (140, some 140),
   (155, some 155), (170, some 170)]

/-- Counterexample for C7 as stated: the code's window length is
`max(10, int(180 / first interval)) = 36` samples, not
`int(180 / median interval) = 12`. -/
theorem claim_C7_counterexample :
    10 ≤ (dropna s7c).length ∧
    sliding_window_size (dropna s7c) 180 = 36 ∧
    sliding_window_size_spec (dropna s7c) 180 = 12 ∧
    sliding_window_size (dropna s7c) 180 ≠ sliding_window_size_spec (dropna s7c) 180 := by
  refine ⟨?_, ?_, ?_, ?_⟩
  · with_unfolding_all decide
  · with_unfolding_all rfl
  · with_unfolding_all rfl
  · with_unfolding_all decide

theorem segCandidate_fields (s : Series) (ws : ℕ) (min_seg : ℚ) (i : ℕ)
    (c : Seg) (hc : segCandidate s ws min_seg i = some c) :
    c.start_idx = i ∧ c.end_idx = i + (ws - 1) := by
  simp only [segCandidate] at hc
  split at hc
  · exact absurd hc (by simp)
  next h3 =>
    have hwle : ((s.drop i).take ws).length ≤ ws := by
      simpa using List.length_take_le ws (s.drop i)
    split at hc
    · split at hc
      · split at hc
        · obtain rfl : _ = c := Option.some.injEq _ _ ▸ hc
          refine ⟨rfl, ?_⟩
          simp only
          omega
        · exact absurd hc (by simp)
      · exact absurd hc (by simp)
    · exact absurd hc (by simp)

theorem segScan_window_shape (s : Series) (ws : ℕ) (min_seg : ℚ) :
    ∀ (fuel i : ℕ), (∃ k0, i = k0 * (ws / 2)) →
      ∀ seg ∈ segScan s ws min_seg fuel i,
        (∃ k, seg.start_idx = k * (ws / 2)) ∧
        seg.end_idx = seg.start_idx + (ws - 1) ∧
        seg.start_idx + ws < s.length := by
  intro fuel
  induction fuel with
  | zero =>
      intro i _ seg hseg
      simp [segScan] at hseg
  | succ n ih =>
      intro i hk seg hseg
      obtain ⟨k0, rfl⟩ := hk
      simp only [segScan] at hseg
      split at hseg
      next hbound =>
        have hnext : ∃ k1, k0 * (ws / 2) + ws / 2 = k1 * (ws / 2) :=
          ⟨k0 + 1, by ring⟩
        split at hseg
        next c hcand =>
          rcases List.mem_cons.mp hseg with rfl | hmem
          · obtain ⟨h1, h2⟩ := segCandidate_fields s ws min_seg _ seg hcand
            exact ⟨⟨k0, h1⟩, by rw [h2, h1], by rw [h1]; exact hbound⟩
          · exact ih _ hnext seg hmem
        next hcand => exact ih _ hnext seg hseg
      next => simp at hseg

/-- C7 (amended): in segment identification the sliding window's length
in samples is `max(10, int(180 / first sampling interval))` — the
interval between the *first two* samples, with a floor of 10 samples, not
the median interval — and the window advances by `window_size // 2` each
step: every candidate window starts at a multiple of `window_size // 2`,
spans exactly `window_size` samples, and fits inside the series. -/
theorem claim_C7_window_geometry (s : Series) (min_seg : ℚ) :
    sliding_window_size s 180 =
      max 10 (pyInt (180 / (timeAt s 1 - timeAt s 0))).toNat ∧
    (∀ seg ∈ segCandidates s min_seg,
      (∃ k, seg.start_idx = k * (sliding_window_size s 180 / 2)) ∧
      seg.end_idx = seg.start_idx + (sliding_window_size s 180 - 1) ∧
      seg.start_idx + sliding_window_size s 180 < s.length) := by
  refine ⟨rfl, ?_⟩
  intro seg hseg
  exact segScan_window_shape s (sliding_window_size s 180) min_seg (s.length + 1) 0
    ⟨0, by ring⟩ seg hseg

/-- An 11-sample series rising linearly, 18 minutes between samples:
window size `max(10, int(180/18)) = 10`, one qualifying candidate. -/
def s7w : RawSeries :=
  [(0, some 0), (18, some 18), (36, some 36), (54, some 54), (72, some 72), (90, some 90),
   (108, some 108), (126, some 126), (144, some 144), (162, some 162), (180, some 180)]

/-- Witness for the amended C7 on a concrete series with one qualifying
window. -/
theorem claim_C7_witness :
    (⟨0, 9, 0, 162⟩ : Seg) ∈ segCandidates (dropna s7w) 120 ∧
    (∃ k, (⟨0, 9, 0, 162⟩ : Seg).start_idx = k * (sliding_window_size (dropna s7w) 180 / 2)) ∧
    (⟨0, 9, 0, 162⟩ : Seg).end_idx =
      (⟨0, 9, 0, 162⟩ : Seg).start_idx + (sliding_window_size (dropna s7w) 180 - 1) ∧
    (⟨0, 9, 0, 162⟩ : Seg).start_idx + sliding_window_size (dropna s7w) 180 <
      (dropna s7w).length := by
  have hmem : (⟨0, 9, 0, 162⟩ : Seg) ∈ segCandidates (dropna s7w) 120 := by
    rw [show segCandidates (dropna s7w) 120 = [⟨0, 9, 0, 162⟩] by with_unfolding_all rfl]
    simp
  exact ⟨hmem, (claim_C7_window_geometry (dropna s7w) 120).2 _ hmem⟩

end Lumen
